import Mathlib

/-!
Verification development for the core of the smt-switch abstraction layer.

This file gives a shallow embedding of the sort-inference engine
(src/src/sort_inference.cpp) and of the logging solver
(src/src/logging_solver.cpp), and proves or refutes the specified
properties against those definitions.

Parts of the repository referenced by the covered code are not among the
provided source files (the PrimOp enumeration and get_arity from ops.h,
the sort-check helper predicates declared in sort_inference.h, the Sort
representation, the TermHashTable, and compute_sort).  Those are modelled
from the specification, and each such definition carries a doc comment
saying so.
-/

namespace SmtSwitch

/-- Modelled from the spec: the SortKind enumeration (the outer tag of a
sort, ignoring parameters); the enumeration itself is declared in code not
under src, but its members are fixed by the spec's sort algebra and by the
unit tests (src/tests/unit/unit-sort.cpp). -/
inductive SortKind where
  | BOOL
  | BV
  | INT
  | REAL
  | ARRAY
  | FUNCTION
  | UNINTERPRETED
  | UNINTERPRETED_CONS
deriving DecidableEq

/-- Modelled from the spec: the closed sort algebra of section 3 (the Sort
implementation file is not under src).  Two sorts are equal iff their tags
and all parameters are structurally equal, which the embedding gets for
free from structural equality of the inductive. -/
inductive SmtSort where
  | bool
  | bv (width : Nat)
  | int
  | real
  | array (idx : SmtSort) (elem : SmtSort)
  | function (domain : List SmtSort) (codomain : SmtSort)
  | uninterpreted (name : String) (arity : Nat)

mutual

/-- Decidable structural equality of sorts (spec section 3: two sorts are
equal iff their tags and all parameters are structurally equal). -/
def decSmtSort (s1 s2 : SmtSort) : Decidable (s1 = s2) := by
  cases s1 <;> cases s2 <;>
    try { apply Decidable.isFalse ; intro h ; injection h }
  case bool.bool => exact .isTrue rfl
  case int.int => exact .isTrue rfl
  case real.real => exact .isTrue rfl
  case bv.bv w1 w2 =>
    exact match Nat.decEq w1 w2 with
    | isTrue h => .isTrue (by rw [h])
    | isFalse _ => .isFalse (by intro h; injection h; contradiction)
  case array.array i1 e1 i2 e2 =>
    exact match decSmtSort i1 i2, decSmtSort e1 e2 with
    | isTrue h1, isTrue h2 => .isTrue (by rw [h1, h2])
    | isFalse _, _ => .isFalse (by intro h; injection h; contradiction)
    | _, isFalse _ => .isFalse (by intro h; injection h; contradiction)
  case function.function d1 c1 d2 c2 =>
    exact match decSmtSortList d1 d2, decSmtSort c1 c2 with
    | isTrue h1, isTrue h2 => .isTrue (by rw [h1, h2])
    | isFalse _, _ => .isFalse (by intro h; injection h; contradiction)
    | _, isFalse _ => .isFalse (by intro h; injection h; contradiction)
  case uninterpreted.uninterpreted n1 a1 n2 a2 =>
    exact match String.decEq n1 n2, Nat.decEq a1 a2 with
    | isTrue h1, isTrue h2 => .isTrue (by rw [h1, h2])
    | isFalse _, _ => .isFalse (by intro h; injection h; contradiction)
    | _, isFalse _ => .isFalse (by intro h; injection h; contradiction)

/-- Decidable equality of sort vectors, mutually with decSmtSort. -/
def decSmtSortList (l1 l2 : List SmtSort) : Decidable (l1 = l2) :=
  match l1, l2 with
  | [], [] => .isTrue rfl
  | _ :: _, [] => .isFalse (by intro h; injection h)
  | [], _ :: _ => .isFalse (by intro h; injection h)
  | x :: xs, y :: ys =>
    match decSmtSort x y, decSmtSortList xs ys with
    | isTrue h1, isTrue h2 => .isTrue (by rw [h1, h2])
    | isFalse _, _ => .isFalse (by intro h; injection h; contradiction)
    | _, isFalse _ => .isFalse (by intro h; injection h; contradiction)

end

instance : DecidableEq SmtSort := decSmtSort

/-- Modelled from the spec: Sort::get_sort_kind, the outer tag of a sort. -/
def get_sort_kind : SmtSort → SortKind
  | .bool => .BOOL
  | .bv _ => .BV
  | .int => .INT
  | .real => .REAL
  | .array _ _ => .ARRAY
  | .function _ _ => .FUNCTION
  | .uninterpreted _ _ => .UNINTERPRETED

/-- Modelled from the spec: Sort::get_domain_sorts; only ever called on a
sort already checked to be a Function sort. -/
def get_domain_sorts : SmtSort → List SmtSort
  | .function d _ => d
  | _ => []

/-- Modelled from the spec: Sort::get_indexsort; only meaningful on an
Array sort. -/
def get_indexsort : SmtSort → SmtSort
  | .array i _ => i
  | _ => .bool

/-- Modelled from the spec: Sort::get_elemsort; only meaningful on an
Array sort. -/
def get_elemsort : SmtSort → SmtSort
  | .array _ e => e
  | _ => .bool

/-- Modelled from the spec: the closed PrimOp enumeration (ops.h is not
under src).  The members are the operators enumerated in spec section 4.1,
exactly the keys of the sort_check_dispatch table in
src/src/sort_inference.cpp, plus the null element NUM_OPS_AND_NULL carried
by a default-constructed Op() (used for leaves throughout
src/src/logging_solver.cpp). -/
inductive PrimOp where
  | And | Or | Xor | Not | Implies | Iff | Ite
  | Equal | Distinct | Apply
  | Plus | Minus | Negate | Mult | Div
  | Lt | Le | Gt | Ge
  | Mod | Abs | Pow | IntDiv
  | To_Real | To_Int | Is_Int
  | Concat | Extract | BVNot | BVNeg
  | BVAnd | BVOr | BVXor | BVNand | BVNor | BVXnor
  | BVAdd | BVSub | BVMul | BVUdiv | BVSdiv | BVUrem | BVSrem | BVSmod
  | BVShl | BVAshr | BVLshr | BVComp
  | BVUlt | BVUle | BVUgt | BVUge | BVSlt | BVSle | BVSgt | BVSge
  | Zero_Extend | Sign_Extend | Repeat | Rotate_Left | Rotate_Right
  | BV_To_Nat | Int_To_BV
  | Select | Store
  | NUM_OPS_AND_NULL
deriving DecidableEq

/-- An operator: a primitive operator together with its integer indices
(spec section 3, Operator). -/
structure Op where
  prim_op : PrimOp
  indices : List Nat
deriving DecidableEq

/-- The null operator Op(): a default-constructed Op, used for leaf terms
in src/src/logging_solver.cpp. -/
def Op.null : Op := ⟨.NUM_OPS_AND_NULL, []⟩

/-- Modelled from the spec: get_arity (ops.h is not under src).  Spec
section 3: each PrimOp has a closed (min_arity, max_arity) pair, and
max_arity may be unbounded exactly for the associative operators And, Or,
Plus, Mult, BVAnd, BVOr, BVXor, BVAdd, BVMul, Concat; Apply takes a
function and one argument per domain sort, so it is also unbounded above.
none encodes an unbounded maximum.  The null operator is given the empty
range (0, 0). -/
def get_arity : PrimOp → Nat × Option Nat
  | .And | .Or | .Plus | .Mult => (2, none)
  | .BVAnd | .BVOr | .BVXor | .BVAdd | .BVMul | .Concat => (2, none)
  | .Apply => (2, none)
  | .Not | .Negate | .Abs | .To_Real | .To_Int | .Is_Int => (1, some 1)
  | .BVNot | .BVNeg | .Extract | .Zero_Extend | .Sign_Extend => (1, some 1)
  | .Repeat | .Rotate_Left | .Rotate_Right | .BV_To_Nat | .Int_To_BV => (1, some 1)
  | .Ite | .Store => (3, some 3)
  | .NUM_OPS_AND_NULL => (0, some 0)
  | _ => (2, some 2)

/-- Terms enter check_sortedness only through t->get_sort()
(src/src/sort_inference.cpp line 120), so an argument term is modelled by
its sort. -/
structure STerm where
  sort : SmtSort
deriving DecidableEq

/-- Result of a call to check_sortedness: a returned boolean, a thrown
NotImplementedException, or an out-of-bounds vector read (undefined
behaviour in the C++ source), recording the offending index. -/
inductive CheckResult where
  | ok (b : Bool)
  | notImplemented
  | oobRead (j : Nat)
deriving DecidableEq

/-- Read sorts[j] with std::vector::operator[]: defined when j is in
bounds, an out-of-bounds read (recorded as an error) otherwise. -/
def vec_at (sorts : List SmtSort) (j : Nat) : Except Nat SmtSort :=
  match sorts.get? j with
  | some s => .ok s
  | none => .error j

/-- From src/src/sort_inference.cpp lines 132-137 (equal_sorts): true iff
adjacent_find with not_equal_to finds no adjacent unequal pair, i.e. all
sorts in the vector are structurally equal. -/
def equal_sorts : List SmtSort → Bool
  | [] => true
  | [_] => true
  | s1 :: s2 :: rest => if s1 = s2 then equal_sorts (s2 :: rest) else false

/-- From src/src/sort_inference.cpp lines 139-151 (equal_sortkinds): all
sorts share the sort kind of the first one. -/
def equal_sortkinds : List SmtSort → Bool
  | [] => true
  | s1 :: rest => rest.all (fun s => get_sort_kind s1 = get_sort_kind s)

/-- From src/src/sort_inference.cpp lines 159-169 (check_sortkind_matches):
every sort in the vector has the given kind. -/
def check_sortkind_matches (sk : SortKind) (sorts : List SmtSort) : Bool :=
  sorts.all (fun s => sk = get_sort_kind s)

/-- Modelled from the spec: bool_sorts, declared in sort_inference.h (not
under src) and used in the dispatch table for the Boolean connectives,
which spec section 4.1 requires to take all-Bool arguments. -/
def bool_sorts (sorts : List SmtSort) : Bool :=
  check_sortkind_matches .BOOL sorts

/-- Modelled from the spec: int_sorts (sort_inference.h is not under src);
the integer-only operators of spec section 4.1 require all-Int
arguments. -/
def int_sorts (sorts : List SmtSort) : Bool :=
  check_sortkind_matches .INT sorts

/-- Modelled from the spec: real_sorts (sort_inference.h is not under
src); To_Int requires a Real argument. -/
def real_sorts (sorts : List SmtSort) : Bool :=
  check_sortkind_matches .REAL sorts

/-- Modelled from the spec: bv_sorts (sort_inference.h is not under src);
the BV operators with possibly differing widths require all-BV
arguments. -/
def bv_sorts (sorts : List SmtSort) : Bool :=
  check_sortkind_matches .BV sorts

/-- Modelled from the spec: arithmetic_sorts (sort_inference.h is not
under src); spec section 4.1: all arguments Int or all Real, consistent
within a single call. -/
def arithmetic_sorts (sorts : List SmtSort) : Bool :=
  check_sortkind_matches .INT sorts || check_sortkind_matches .REAL sorts

/-- Modelled from the spec: eq_bv_sorts (sort_inference.h is not under
src); spec section 4.1: all BV of identical width. -/
def eq_bv_sorts (sorts : List SmtSort) : Bool :=
  bv_sorts sorts && equal_sorts sorts

/-- From src/src/sort_inference.cpp lines 153-157 (check_ite_sorts): the
first sort is Bool and the second and third are equal; reads sorts[0],
sorts[1], sorts[2] unconditionally (the source asserts size 3). -/
def check_ite_sorts (sorts : List SmtSort) : Except Nat Bool := do
  let s0 ← vec_at sorts 0
  let s1 ← vec_at sorts 1
  let s2 ← vec_at sorts 2
  return (decide (get_sort_kind s0 = .BOOL) && decide (s1 = s2))

/-- The loop of check_apply_sorts (src/src/sort_inference.cpp lines
187-193): for each i below domain_sorts.size(), compare domain_sorts[i]
with sorts[i + 1]; the first argument list is the remaining suffix of
domain_sorts and i is the current loop counter. -/
def check_apply_loop (sorts : List SmtSort) :
    List SmtSort → Nat → Except Nat Bool
  | [], _ => .ok true
  | d :: rest, i =>
    match vec_at sorts (i + 1) with
    | .error j => .error j
    | .ok a => if d = a then check_apply_loop sorts rest (i + 1) else .ok false

/-- From src/src/sort_inference.cpp lines 171-195 (check_apply_sorts): the
first sort must be a Function sort, the guard compares
domain_sorts.size() with sorts.size() + 1 (returning false on mismatch),
and the loop compares each domain sort with sorts[i + 1]. -/
def check_apply_sorts (sorts : List SmtSort) : Except Nat Bool :=
  match vec_at sorts 0 with
  | .error j => .error j
  | .ok funsort =>
    if get_sort_kind funsort ≠ .FUNCTION then .ok false
    else
      let domain_sorts := get_domain_sorts funsort
      if domain_sorts.length ≠ sorts.length + 1 then .ok false
      else check_apply_loop sorts domain_sorts 0

/-- From src/src/sort_inference.cpp lines 197-217 (check_select_sorts):
exactly two sorts, the first an Array whose index sort is the second. -/
def check_select_sorts (sorts : List SmtSort) : Bool :=
  match sorts with
  | [arrsort, idx] =>
    if get_sort_kind arrsort ≠ .ARRAY then false
    else if idx ≠ get_indexsort arrsort then false
    else true
  | _ => false

/-- From src/src/sort_inference.cpp lines 219-243 (check_store_sorts):
exactly three sorts, the first an Array whose index sort is the second and
whose element sort is the third. -/
def check_store_sorts (sorts : List SmtSort) : Bool :=
  match sorts with
  | [arrsort, idx, elem] =>
    if get_sort_kind arrsort ≠ .ARRAY then false
    else if idx ≠ get_indexsort arrsort then false
    else if elem ≠ get_elemsort arrsort then false
    else true
  | _ => false

/-- Lift a pure sort-check predicate into the checker type. -/
def lift_check (f : List SmtSort → Bool) (sorts : List SmtSort) :
    Except Nat Bool :=
  .ok (f sorts)

/-- From src/src/sort_inference.cpp lines 31-101: the sort_check_dispatch
table, entry for entry, in the source's order; none models absence of a
key. -/
def sort_check_dispatch : PrimOp → Option (List SmtSort → Except Nat Bool)
  | .And => some (lift_check bool_sorts)
  | .Or => some (lift_check bool_sorts)
  | .Xor => some (lift_check bool_sorts)
  | .Not => some (lift_check bool_sorts)
  | .Implies => some (lift_check bool_sorts)
  | .Iff => some (lift_check bool_sorts)
  | .Ite => some check_ite_sorts
  | .Equal => some (lift_check bool_sorts)
  | .Distinct => some (lift_check bool_sorts)
  | .Apply => some check_apply_sorts
  | .Plus => some (lift_check arithmetic_sorts)
  | .Minus => some (lift_check arithmetic_sorts)
  | .Negate => some (lift_check arithmetic_sorts)
  | .Mult => some (lift_check arithmetic_sorts)
  | .Div => some (lift_check arithmetic_sorts)
  | .Lt => some (lift_check bool_sorts)
  | .Le => some (lift_check bool_sorts)
  | .Gt => some (lift_check bool_sorts)
  | .Ge => some (lift_check bool_sorts)
  | .Mod => some (lift_check int_sorts)
  | .Abs => some (lift_check int_sorts)
  | .Pow => some (lift_check int_sorts)
  | .IntDiv => some (lift_check int_sorts)
  | .To_Real => some (lift_check int_sorts)
  | .To_Int => some (lift_check real_sorts)
  | .Is_Int => some (lift_check int_sorts)
  | .Concat => some (lift_check bv_sorts)
  | .Extract => some (lift_check bv_sorts)
  | .BVNot => some (lift_check bv_sorts)
  | .BVNeg => some (lift_check bv_sorts)
  | .BVAnd => some (lift_check eq_bv_sorts)
  | .BVOr => some (lift_check eq_bv_sorts)
  | .BVXor => some (lift_check eq_bv_sorts)
  | .BVNand => some (lift_check eq_bv_sorts)
  | .BVNor => some (lift_check eq_bv_sorts)
  | .BVXnor => some (lift_check eq_bv_sorts)
  | .BVAdd => some (lift_check eq_bv_sorts)
  | .BVSub => some (lift_check eq_bv_sorts)
  | .BVMul => some (lift_check eq_bv_sorts)
  | .BVUdiv => some (lift_check eq_bv_sorts)
  | .BVSdiv => some (lift_check eq_bv_sorts)
  | .BVUrem => some (lift_check eq_bv_sorts)
  | .BVSrem => some (lift_check eq_bv_sorts)
  | .BVSmod => some (lift_check eq_bv_sorts)
  | .BVShl => some (lift_check eq_bv_sorts)
  | .BVAshr => some (lift_check eq_bv_sorts)
  | .BVLshr => some (lift_check eq_bv_sorts)
  | .BVComp => some (lift_check eq_bv_sorts)
  | .BVUlt => some (lift_check eq_bv_sorts)
  | .BVUle => some (lift_check eq_bv_sorts)
  | .BVUgt => some (lift_check eq_bv_sorts)
  | .BVUge => some (lift_check eq_bv_sorts)
  | .BVSlt => some (lift_check eq_bv_sorts)
  | .BVSle => some (lift_check eq_bv_sorts)
  | .BVSgt => some (lift_check eq_bv_sorts)
  | .BVSge => some (lift_check eq_bv_sorts)
  | .Zero_Extend => some (lift_check bv_sorts)
  | .Sign_Extend => some (lift_check bv_sorts)
  | .Repeat => some (lift_check bv_sorts)
  | .Rotate_Left => some (lift_check bv_sorts)
  | .Rotate_Right => some (lift_check bv_sorts)
  | .BV_To_Nat => some (lift_check bv_sorts)
  | .Int_To_BV => some (lift_check int_sorts)
  | .Select => some (lift_check check_select_sorts)
  | .Store => some (lift_check check_store_sorts)
  | .NUM_OPS_AND_NULL => none

/-- The arity test of check_sortedness (src/src/sort_inference.cpp lines
106-112): num_args < min_max_arity.first or num_args >
min_max_arity.second; an unbounded maximum (none) is never exceeded. -/
def arity_mismatch (p : PrimOp) (num_args : Nat) : Bool :=
  num_args < (get_arity p).1 ||
    (match (get_arity p).2 with
     | some mx => mx < num_args
     | none => false)

/-- From src/src/sort_inference.cpp lines 104-129 (check_sortedness):
return false on an arity mismatch; otherwise look the primitive operator
up in sort_check_dispatch and run the found checker on the argument
sorts, or throw NotImplemented when there is no entry. -/
def check_sortedness (op : Op) (terms : List STerm) : CheckResult :=
  if arity_mismatch op.prim_op terms.length then .ok false
  else
    match sort_check_dispatch op.prim_op with
    | some f =>
      match f (terms.map STerm.sort) with
      | .ok b => .ok b
      | .error j => .oobRead j
    | none => .notImplemented

/-- C1: the claim states that for Equal and Distinct, check_sortedness
returns true iff all argument terms share a single sort.  The dispatch
table instead wires Equal and Distinct to bool_sorts, so two Int-sorted
terms (within Equal's arity bounds and sharing the single sort Int, as the
source's own equal_sorts helper witnesses) are rejected: the code returns
false where the claim requires true. -/
theorem equal_two_ints_rejected :
    check_sortedness ⟨.Equal, []⟩ [⟨.int⟩, ⟨.int⟩] = .ok false ∧
      check_sortedness ⟨.Distinct, []⟩ [⟨.int⟩, ⟨.int⟩] = .ok false ∧
      equal_sorts [SmtSort.int, SmtSort.int] = true ∧
      arity_mismatch .Equal 2 = false ∧ arity_mismatch .Distinct 2 = false := by
  decide

/-- C3: the claim states that for Lt, Le, Gt, Ge, check_sortedness
returns true iff all arguments share one arithmetic sort.  The dispatch
table instead wires the comparisons to bool_sorts, so two Int-sorted
terms (within arity bounds, sharing the arithmetic sort Int as
arithmetic_sorts witnesses) are rejected: the code returns false where
the claim requires true. -/
theorem lt_two_ints_rejected :
    check_sortedness ⟨.Lt, []⟩ [⟨.int⟩, ⟨.int⟩] = .ok false ∧
      check_sortedness ⟨.Le, []⟩ [⟨.int⟩, ⟨.int⟩] = .ok false ∧
      check_sortedness ⟨.Gt, []⟩ [⟨.int⟩, ⟨.int⟩] = .ok false ∧
      check_sortedness ⟨.Ge, []⟩ [⟨.int⟩, ⟨.int⟩] = .ok false ∧
      arithmetic_sorts [SmtSort.int, SmtSort.int] = true ∧
      arity_mismatch .Lt 2 = false := by
  decide

/-- C2: the claim states that Apply type-checks when the function sort
has exactly terms.size() - 1 domain sorts matching the remaining argument
sorts in order.  On a unary function of sort Function([Int], Int) applied
to one Int argument - exactly the claim's accepting shape, as the second
and third conjuncts witness - check_apply_sorts's guard compares the
domain count against sorts.size() + 1 instead, so the code returns
false. -/
theorem apply_unary_function_rejected :
    check_sortedness ⟨.Apply, []⟩ [⟨.function [.int] .int⟩, ⟨.int⟩] = .ok false ∧
      (get_domain_sorts (.function [.int] .int)).length = 2 - 1 ∧
      get_domain_sorts (.function [.int] .int) = [SmtSort.int] := by
  decide

/-- C10: the claim states that whenever the first sort is a Function sort
and the domain-size guard passes, every read of the argument-sort vector
inside check_apply_sorts is in bounds.  On the two-element vector
[Function([Int, Int, Int], Int), Int] the guard passes (3 = 2 + 1, first
conjunct), yet the loop reads sorts[2] on a vector of length 2: an
out-of-bounds read, recorded by the embedding as error 2. -/
theorem check_apply_sorts_reads_out_of_bounds :
    (get_domain_sorts (SmtSort.function [.int, .int, .int] .int)).length =
        [SmtSort.function [.int, .int, .int] .int, SmtSort.int].length + 1 ∧
      check_apply_sorts [.function [.int, .int, .int] .int, .int] = .error 2 ∧
      [SmtSort.function [.int, .int, .int] .int, SmtSort.int].length ≤ 2 :=
  ⟨by decide, rfl, by decide⟩

/-- C7: for every operator and every argument list whose length is
strictly below the operator's minimum arity or strictly above its maximum
arity, check_sortedness returns false and does not throw. -/
theorem check_sortedness_arity_mismatch (op : Op) (terms : List STerm)
    (h : arity_mismatch op.prim_op terms.length = true) :
    check_sortedness op terms = .ok false := by
  simp [check_sortedness, h]

/-- Witness for C7: Not has arity bounds (1, 1), so two arguments are too
many and check_sortedness returns false on them. -/
theorem check_sortedness_arity_mismatch_witness :
    arity_mismatch PrimOp.Not 2 = true ∧
      check_sortedness ⟨.Not, []⟩ [⟨.int⟩, ⟨.int⟩] = .ok false :=
  ⟨by decide, check_sortedness_arity_mismatch ⟨.Not, []⟩ [⟨.int⟩, ⟨.int⟩] (by decide)⟩

/-- C8: for every operator with no entry in the sort-check dispatch table
and an argument count within its arity bounds, check_sortedness throws
NotImplemented instead of returning a boolean. -/
theorem check_sortedness_unknown_op (op : Op) (terms : List STerm)
    (h1 : arity_mismatch op.prim_op terms.length = false)
    (h2 : sort_check_dispatch op.prim_op = none) :
    check_sortedness op terms = .notImplemented := by
  simp [check_sortedness, h1, h2]

/-- Witness for C8: the null operator has no dispatch entry; with an
argument count inside its modelled arity bounds the call throws
NotImplemented. -/
theorem check_sortedness_unknown_op_witness :
    arity_mismatch PrimOp.NUM_OPS_AND_NULL 0 = false ∧
      sort_check_dispatch PrimOp.NUM_OPS_AND_NULL = none ∧
      check_sortedness ⟨.NUM_OPS_AND_NULL, []⟩ [] = .notImplemented :=
  ⟨by decide, rfl,
    check_sortedness_unknown_op ⟨.NUM_OPS_AND_NULL, []⟩ [] (by decide) rfl⟩

/-- Opaque handle to a term of the wrapped backend solver; the core never
looks inside a backend's term representation (spec section 1), so a
handle is modelled as a bare identifier. -/
abbrev BTerm := Nat

/-- The environment a LoggingSolver runs in: the operations of the
wrapped backend solver (the backend interface of spec section 4.2 -
backend adapters are external collaborators outside the covered core)
together with compute_sort, whose implementation file
(logging_sort_computation) is not under src.  Spec section 5: every call
is synchronous, so each operation is a pure function. -/
structure LoggingCtx where
  mk_term : Op → List BTerm → BTerm
  mk_symbol : String → SmtSort → BTerm
  term_sort : BTerm → SmtSort
  is_value : BTerm → Bool
  value_of : BTerm → BTerm
  array_values : BTerm → List (BTerm × BTerm) × Option BTerm
  compute_sort : Op → List SmtSort → SmtSort → SmtSort

/-- A LoggingTerm (spec section 3): the opaque backend handle, the sort
the logging layer assigned, the operator (Op.null for leaves), the
children recorded by their canonical identities (spec section 4.4:
children contribute their canonical identity to the structural key), the
optional symbol name, and the backend-derived value flag.  The id field
is the object identity: each C++ `new LoggingTerm` allocation yields a
fresh one. -/
structure LTerm where
  id : Nat
  term : BTerm
  sort : SmtSort
  op : Op
  children : List Nat
  symbol : Option String
  is_value : Bool
deriving DecidableEq

/-- Structural equality of logging terms (the invariant in spec section 3
and the hash key of section 4.4): op, sort, children identities, and
symbol name agree, the value flags agree, and value leaves are
additionally compared through the backend (their backend handles).
Object identity does not participate. -/
def struct_eq (a b : LTerm) : Prop :=
  a.op = b.op ∧ a.sort = b.sort ∧ a.children = b.children ∧
    a.symbol = b.symbol ∧ a.is_value = b.is_value ∧
    (a.is_value = true → a.term = b.term)

instance struct_eq.dec (a b : LTerm) : Decidable (struct_eq a b) :=
  decidable_of_iff
    (a.op = b.op ∧ a.sort = b.sort ∧ a.children = b.children ∧
      a.symbol = b.symbol ∧ a.is_value = b.is_value ∧
      (a.is_value = true → a.term = b.term))
    Iff.rfl

/-- Modelled from the spec: the TermHashTable's lookup (its
implementation file is not under src).  Spec section 3: lookup returns
the canonical shared term structurally equal to the candidate when one is
present; the comments in src/src/logging_solver.cpp add that lookup
returns the existing term and the caller inserts the candidate on a
miss. -/
def TermHashTable.lookup (cand : LTerm) : List LTerm → Option LTerm
  | [] => none
  | u :: rest =>
    if struct_eq cand u then some u else TermHashTable.lookup cand rest

/-- Modelled from the spec: lookup_or_insert (spec section 3,
TermHashTable): given a freshly-built candidate, either return the
canonical term structurally equal to it with the table unchanged (the
candidate is discarded), or install the candidate.  This is exactly the
lookup-then-insert pattern repeated at every construction site of
src/src/logging_solver.cpp. -/
def TermHashTable.lookup_or_insert (cand : LTerm) (tbl : List LTerm) :
    LTerm × List LTerm :=
  match TermHashTable.lookup cand tbl with
  | some u => (u, tbl)
  | none => (cand, tbl ++ [cand])

/-- A call forwarded to the wrapped backend solver; the logging layer
forwards every operation to the inner solver (spec section 4.3). -/
inductive BCall where
  | mkTerm (op : Op) (args : List BTerm)
  | mkSymbol (name : String)
  | getValue (t : BTerm)
  | arrayValues (t : BTerm)
  | reset
  | resetAssertions
deriving DecidableEq

/-- The state of a LoggingSolver: the term hash table, the next object
identity a `new LoggingTerm` allocation will receive, and the trace of
calls forwarded to the wrapped solver. -/
structure LSState where
  table : List LTerm
  nextId : Nat
  inner : List BCall
deriving DecidableEq

/-- From src/src/logging_solver.cpp lines 256-284
(LoggingSolver::make_term(Op, TermVec)): unwrap the children, forward to
the wrapped solver, assign the sort with compute_sort, allocate a
LoggingTerm, and hash-cons it: a table hit returns the existing canonical
term and discards the new allocation; a miss inserts the new term. -/
def LoggingSolver.make_term (ctx : LoggingCtx) (op : Op) (terms : List LTerm)
    (s : LSState) : LTerm × LSState :=
  let lterms := terms.map LTerm.term
  let wrapped := ctx.mk_term op lterms
  let logging_sorts := terms.map LTerm.sort
  let res_sort := ctx.compute_sort op logging_sorts (ctx.term_sort wrapped)
  let res : LTerm :=
    ⟨s.nextId, wrapped, res_sort, op, terms.map LTerm.id, none,
      ctx.is_value wrapped⟩
  let found := TermHashTable.lookup_or_insert res s.table
  (found.1,
    { s with
      table := found.2
      nextId := s.nextId + 1
      inner := s.inner ++ [.mkTerm op lterms] })

/-- From src/src/logging_solver.cpp lines 166-182
(LoggingSolver::make_symbol): forward to the wrapped solver, allocate a
LoggingTerm carrying the symbol name with empty op and children, and
hash-cons it exactly as make_term does. -/
def LoggingSolver.make_symbol (ctx : LoggingCtx) (name : String)
    (sort : SmtSort) (s : LSState) : LTerm × LSState :=
  let wrapped := ctx.mk_symbol name sort
  let res : LTerm :=
    ⟨s.nextId, wrapped, sort, Op.null, [], some name, ctx.is_value wrapped⟩
  let found := TermHashTable.lookup_or_insert res s.table
  (found.1,
    { s with
      table := found.2
      nextId := s.nextId + 1
      inner := s.inner ++ [.mkSymbol name] })

/-- From src/src/logging_solver.cpp lines 286-292
(LoggingSolver::get_value): forward to the wrapped solver and wrap the
result in a freshly allocated LoggingTerm carrying the queried term's
sort with empty op and children; the hash table is neither consulted nor
modified. -/
def LoggingSolver.get_value (ctx : LoggingCtx) (t : LTerm) (s : LSState) :
    LTerm × LSState :=
  let wrapped_val := ctx.value_of t.term
  let val : LTerm :=
    ⟨s.nextId, wrapped_val, t.sort, Op.null, [], none,
      ctx.is_value wrapped_val⟩
  (val, { s with nextId := s.nextId + 1, inner := s.inner ++ [.getValue t.term] })

/-- The wrapping loop of get_array_values (src/src/logging_solver.cpp
lines 317-327): each index/value pair from the wrapped solver is wrapped
in freshly allocated LoggingTerms with the array's index and element
sorts; nid threads the object identities of the allocations. -/
def wrap_assignments (ctx : LoggingCtx) (idxsort elemsort : SmtSort) :
    List (BTerm × BTerm) → Nat → List (LTerm × LTerm) × Nat
  | [], nid => ([], nid)
  | (bi, bv) :: rest, nid =>
    let idx : LTerm := ⟨nid, bi, idxsort, Op.null, [], none, ctx.is_value bi⟩
    let val : LTerm :=
      ⟨nid + 1, bv, elemsort, Op.null, [], none, ctx.is_value bv⟩
    let (tail, nid2) := wrap_assignments ctx idxsort elemsort rest (nid + 2)
    ((idx, val) :: tail, nid2)

/-- What a call to LoggingSolver::get_array_values produces as the body
computes it: the returned assignment map, the updated solver state, and
the final value of the callee's out_const_base PARAMETER.  That parameter
is declared by value (src/src/logging_solver.cpp line 295: `Term
out_const_base`, no reference), so the last field is the callee's local
copy, not something the caller ever sees. -/
structure GAVOut where
  assignments : List (LTerm × LTerm)
  state : LSState
  ocb_local : LTerm
deriving DecidableEq

/-- From src/src/logging_solver.cpp lines 294-330
(LoggingSolver::get_array_values): forward to the wrapped solver; if a
constant base is reported, throw NotImplemented when its sort is an Array
(multidimensional), otherwise wrap it in a fresh LoggingTerm with the
array's element sort and assign it to the (by-value) out_const_base
parameter; wrap every returned index/value pair in fresh LoggingTerms. -/
def LoggingSolver.get_array_values (ctx : LoggingCtx) (arr : LTerm)
    (out_const_base : LTerm) (s : LSState) : Except Unit GAVOut :=
  let idxsort := get_indexsort arr.sort
  let elemsort := get_elemsort arr.sort
  let (wrapped_assignments, wrapped_ocb) := ctx.array_values arr.term
  let s1 : LSState := { s with inner := s.inner ++ [.arrayValues arr.term] }
  match wrapped_ocb with
  | some wb =>
    if get_sort_kind (ctx.term_sort wb) = .ARRAY then .error ()
    else
      let ocb1 : LTerm :=
        ⟨s1.nextId, wb, elemsort, Op.null, [], none, ctx.is_value wb⟩
      let (asgn, nid) :=
        wrap_assignments ctx idxsort elemsort wrapped_assignments (s1.nextId + 1)
      .ok ⟨asgn, { s1 with nextId := nid }, ocb1⟩
  | none =>
    let (asgn, nid) :=
      wrap_assignments ctx idxsort elemsort wrapped_assignments s1.nextId
    .ok ⟨asgn, { s1 with nextId := nid }, out_const_base⟩

/-- C++ call-site semantics of a by-value parameter: get_array_values
declares out_const_base by value (src/src/logging_solver.cpp line 295),
so the callee receives a copy and the caller's argument still holds its
original value after the call, whatever the body assigned to the
parameter. -/
def caller_ocb_after_call (arg : LTerm) : LTerm := arg

/-- From src/src/logging_solver.cpp lines 332-336 (LoggingSolver::reset):
forward reset to the wrapped solver and clear the hash table. -/
def LoggingSolver.reset (s : LSState) : LSState :=
  { s with table := [], inner := s.inner ++ [.reset] }

/-- From src/src/logging_solver.cpp line 374
(LoggingSolver::reset_assertions): forward to the wrapped solver only;
the hash table is untouched. -/
def LoggingSolver.reset_assertions (s : LSState) : LSState :=
  { s with inner := s.inner ++ [.resetAssertions] }

/-- A well-formed hash table: no two distinct entries are structurally
equal (spec section 3: the table retains at most one canonical copy per
equivalence class). -/
def GoodTable (tbl : List LTerm) : Prop :=
  ∀ a ∈ tbl, ∀ b ∈ tbl, struct_eq a b → a = b

instance GoodTable.dec (tbl : List LTerm) : Decidable (GoodTable tbl) :=
  decidable_of_iff (∀ a ∈ tbl, ∀ b ∈ tbl, struct_eq a b → a = b) Iff.rfl

theorem struct_eq_refl (a : LTerm) : struct_eq a a :=
  ⟨rfl, rfl, rfl, rfl, rfl, fun _ => rfl⟩

theorem struct_eq_symm {a b : LTerm} (h : struct_eq a b) : struct_eq b a := by
  obtain ⟨h1, h2, h3, h4, h5, h6⟩ := h
  exact ⟨h1.symm, h2.symm, h3.symm, h4.symm, h5.symm,
    fun hv => (h6 (h5.trans hv)).symm⟩

theorem lookup_mem {cand u : LTerm} {tbl : List LTerm}
    (h : TermHashTable.lookup cand tbl = some u) : u ∈ tbl := by
  induction tbl with
  | nil => simp [TermHashTable.lookup] at h
  | cons v rest ih =>
    simp only [TermHashTable.lookup] at h
    by_cases hc : struct_eq cand v
    · rw [if_pos hc] at h
      exact (Option.some_inj.mp h) ▸ List.mem_cons_self v rest
    · rw [if_neg hc] at h
      exact List.mem_cons_of_mem v (ih h)

theorem lookup_none {cand : LTerm} {tbl : List LTerm}
    (h : TermHashTable.lookup cand tbl = none) :
    ∀ u ∈ tbl, ¬ struct_eq cand u := by
  induction tbl with
  | nil => intro u hu; simp at hu
  | cons v rest ih =>
    simp only [TermHashTable.lookup] at h
    by_cases hc : struct_eq cand v
    · rw [if_pos hc] at h; cases h
    · rw [if_neg hc] at h
      intro u hu
      rcases List.mem_cons.mp hu with rfl | hmem
      · exact hc
      · exact ih h u hmem

theorem lookup_congr {c d : LTerm}
    (h : ∀ u, struct_eq c u ↔ struct_eq d u) (tbl : List LTerm) :
    TermHashTable.lookup c tbl = TermHashTable.lookup d tbl := by
  induction tbl with
  | nil => rfl
  | cons v rest ih =>
    simp only [TermHashTable.lookup]
    by_cases hc : struct_eq c v
    · rw [if_pos hc, if_pos ((h v).mp hc)]
    · rw [if_neg hc, if_neg (fun hd => hc ((h v).mpr hd))]
      exact ih

theorem lookup_append_none {c : LTerm} {t1 : List LTerm}
    (h : TermHashTable.lookup c t1 = none) (t2 : List LTerm) :
    TermHashTable.lookup c (t1 ++ t2) = TermHashTable.lookup c t2 := by
  induction t1 with
  | nil => rfl
  | cons v rest ih =>
    simp only [TermHashTable.lookup] at h
    by_cases hc : struct_eq c v
    · rw [if_pos hc] at h; cases h
    · rw [if_neg hc] at h
      rw [List.cons_append]
      simp only [TermHashTable.lookup]
      rw [if_neg hc]
      exact ih h

theorem lookup_or_insert_mem (cand : LTerm) (tbl : List LTerm) :
    (TermHashTable.lookup_or_insert cand tbl).1 ∈
      (TermHashTable.lookup_or_insert cand tbl).2 := by
  unfold TermHashTable.lookup_or_insert
  rcases hl : TermHashTable.lookup cand tbl with _ | u
  · simp
  · simpa using lookup_mem hl

theorem lookup_or_insert_idem (cand1 cand2 : LTerm)
    (hiff : ∀ u, struct_eq cand2 u ↔ struct_eq cand1 u) (tbl : List LTerm) :
    TermHashTable.lookup_or_insert cand2
        (TermHashTable.lookup_or_insert cand1 tbl).2 =
      ((TermHashTable.lookup_or_insert cand1 tbl).1,
        (TermHashTable.lookup_or_insert cand1 tbl).2) := by
  unfold TermHashTable.lookup_or_insert
  rcases hl : TermHashTable.lookup cand1 tbl with _ | u
  · have h2 : TermHashTable.lookup cand2 (tbl ++ [cand1]) = some cand1 := by
      rw [lookup_congr hiff, lookup_append_none hl]
      simp [TermHashTable.lookup, struct_eq_refl]
    simp [h2]
  · have h2 : TermHashTable.lookup cand2 tbl = some u := by
      rw [lookup_congr hiff]; exact hl
    simp [h2]

theorem goodTable_append {tbl : List LTerm} {c : LTerm}
    (hg : GoodTable tbl) (hc : ∀ u ∈ tbl, ¬ struct_eq c u) :
    GoodTable (tbl ++ [c]) := by
  intro a ha b hb hab
  rcases List.mem_append.mp ha with ha1 | ha2
  · rcases List.mem_append.mp hb with hb1 | hb2
    · exact hg a ha1 b hb1 hab
    · have hbc : b = c := by simpa using hb2
      subst hbc
      exact absurd (struct_eq_symm hab) (fun hba => hc a ha1 hba)
  · have hac : a = c := by simpa using ha2
    subst hac
    rcases List.mem_append.mp hb with hb1 | hb2
    · exact absurd hab (hc b hb1)
    · have hbc : b = a := by simpa using hb2
      exact hbc.symm

theorem lookup_or_insert_good {tbl : List LTerm} (cand : LTerm)
    (hg : GoodTable tbl) :
    GoodTable (TermHashTable.lookup_or_insert cand tbl).2 := by
  unfold TermHashTable.lookup_or_insert
  rcases hl : TermHashTable.lookup cand tbl with _ | u
  · simp only [hl]
    exact goodTable_append hg (lookup_none hl)
  · simp only [hl]
    exact hg

/-- C5: hash-cons idempotence.  Calling make_term twice with the same
operator and children returns the same canonical object (equal terms with
equal identities), and the second call leaves the hash table exactly as
the first call left it (it grows by zero entries). -/
theorem make_term_hashcons_idempotent (ctx : LoggingCtx) (op : Op)
    (terms : List LTerm) (s : LSState) :
    (LoggingSolver.make_term ctx op terms
        (LoggingSolver.make_term ctx op terms s).2).1 =
      (LoggingSolver.make_term ctx op terms s).1 ∧
    (LoggingSolver.make_term ctx op terms
        (LoggingSolver.make_term ctx op terms s).2).2.table =
      (LoggingSolver.make_term ctx op terms s).2.table := by
  simp only [LoggingSolver.make_term]
  rw [lookup_or_insert_idem
    ⟨s.nextId, ctx.mk_term op (terms.map LTerm.term),
      ctx.compute_sort op (terms.map LTerm.sort)
        (ctx.term_sort (ctx.mk_term op (terms.map LTerm.term))),
      op, terms.map LTerm.id, none,
      ctx.is_value (ctx.mk_term op (terms.map LTerm.term))⟩
    ⟨s.nextId + 1, ctx.mk_term op (terms.map LTerm.term),
      ctx.compute_sort op (terms.map LTerm.sort)
        (ctx.term_sort (ctx.mk_term op (terms.map LTerm.term))),
      op, terms.map LTerm.id, none,
      ctx.is_value (ctx.mk_term op (terms.map LTerm.term))⟩
    (fun u => Iff.rfl) s.table]
  exact ⟨rfl, rfl⟩

/-- A concrete backend environment for closed evaluations: handles are
numbers, built terms get a handle derived from the argument count,
model values are the queried handle plus 100, handles of at least 100
count as values, and get_array_values reports one index/value pair and
the constant base 42 of sort Int. -/
def demoCtx : LoggingCtx where
  mk_term := fun _ args => 1000 + args.length
  mk_symbol := fun _ _ => 7
  term_sort := fun _ => .int
  is_value := fun b => decide (100 ≤ b)
  value_of := fun b => b + 100
  array_values := fun _ => ([(1, 2)], some 42)
  compute_sort := fun _ _ bs => bs

/-- A leaf logging term used as concrete input. -/
def demoTerm : LTerm := ⟨0, 0, .int, Op.null, [], none, false⟩

/-- A solver state with an empty hash table. -/
def demoS0 : LSState := ⟨[], 1, []⟩

/-- C4 counterexample: calling get_value twice on the same term returns
two logging terms that are both live (returned to the caller) and
structurally equal, yet are distinct objects, and the first is not in the
hash table after the calls - against the claim that every produced
LoggingTerm is in the hash table or discarded, with no two distinct live
terms structurally equal. -/
theorem get_value_escapes_hash_table :
    (LoggingSolver.get_value demoCtx demoTerm demoS0).1 ≠
      (LoggingSolver.get_value demoCtx demoTerm
        (LoggingSolver.get_value demoCtx demoTerm demoS0).2).1 ∧
    struct_eq (LoggingSolver.get_value demoCtx demoTerm demoS0).1
      (LoggingSolver.get_value demoCtx demoTerm
        (LoggingSolver.get_value demoCtx demoTerm demoS0).2).1 ∧
    (LoggingSolver.get_value demoCtx demoTerm demoS0).1 ∉
      (LoggingSolver.get_value demoCtx demoTerm
        (LoggingSolver.get_value demoCtx demoTerm demoS0).2).2.table := by
  decide

/-- C4 amended: the hash-cons invariant holds for the constructing
operations: a term returned by make_term or make_symbol is in the hash
table afterwards and the table never holds two distinct structurally
equal terms; get_value returns a fresh term and leaves the hash table
unchanged (the fresh term is neither inserted nor deduplicated). -/
theorem hashcons_invariant_for_construction (ctx : LoggingCtx) (op : Op)
    (terms : List LTerm) (name : String) (srt : SmtSort) (t : LTerm)
    (s : LSState) (hg : GoodTable s.table) :
    ((LoggingSolver.make_term ctx op terms s).1 ∈
        (LoggingSolver.make_term ctx op terms s).2.table ∧
      GoodTable (LoggingSolver.make_term ctx op terms s).2.table) ∧
    ((LoggingSolver.make_symbol ctx name srt s).1 ∈
        (LoggingSolver.make_symbol ctx name srt s).2.table ∧
      GoodTable (LoggingSolver.make_symbol ctx name srt s).2.table) ∧
    (LoggingSolver.get_value ctx t s).2.table = s.table := by
  refine ⟨⟨?_, ?_⟩, ⟨?_, ?_⟩, rfl⟩
  · exact lookup_or_insert_mem _ _
  · exact lookup_or_insert_good _ hg
  · exact lookup_or_insert_mem _ _
  · exact lookup_or_insert_good _ hg

/-- Witness for the amended C4: on an empty (hence well-formed) hash
table, a make_term call leaves a well-formed table. -/
theorem hashcons_invariant_for_construction_witness :
    GoodTable (⟨[], 0, []⟩ : LSState).table ∧
      GoodTable (LoggingSolver.make_term demoCtx ⟨.And, []⟩ []
        ⟨[], 0, []⟩).2.table :=
  ⟨by decide,
    (hashcons_invariant_for_construction demoCtx ⟨.And, []⟩ [] "x" .bool
      demoTerm ⟨[], 0, []⟩ (by decide)).1.2⟩

/-- The array term used as concrete input for get_array_values. -/
def demoArr : LTerm := ⟨5, 3, .array .int .int, Op.null, [], none, false⟩

/-- The caller's out_const_base argument before the call. -/
def demoOcbArg : LTerm := ⟨9, 9, .bool, Op.null, [], none, false⟩

/-- The solver state for the get_array_values run. -/
def demoGAVS0 : LSState := ⟨[], 10, []⟩

/-- C6: the backend reports the non-array constant base 42; the body
builds the fresh wrapper (empty op and children, the array's element
sort) and assigns it to its BY-VALUE out_const_base parameter - the first
conjunct shows the wrapper as the parameter's final value, and the
index/value pairs wrapped in fresh logging terms - but the caller's
argument is unchanged by the call (second conjunct) and differs from the
wrapper (third conjunct): the wrapped constant base never reaches the
caller. -/
theorem get_array_values_const_base_lost :
    LoggingSolver.get_array_values demoCtx demoArr demoOcbArg demoGAVS0 =
      .ok ⟨[(⟨11, 1, .int, Op.null, [], none, false⟩,
            ⟨12, 2, .int, Op.null, [], none, false⟩)],
        ⟨[], 13, [.arrayValues 3]⟩,
        ⟨10, 42, .int, Op.null, [], none, false⟩⟩ ∧
    caller_ocb_after_call demoOcbArg = demoOcbArg ∧
    demoOcbArg ≠ ⟨10, 42, .int, Op.null, [], none, false⟩ :=
  ⟨rfl, rfl, by decide⟩

/-- C9: reset clears the term hash table and forwards to the inner
backend; reset_assertions leaves the hash table unchanged and forwards to
the inner backend. -/
theorem reset_clears_table_forwards_both (s : LSState) :
    (LoggingSolver.reset s).table = [] ∧
      (LoggingSolver.reset s).inner = s.inner ++ [.reset] ∧
      (LoggingSolver.reset_assertions s).table = s.table ∧
      (LoggingSolver.reset_assertions s).inner = s.inner ++ [.resetAssertions] :=
  ⟨rfl, rfl, rfl, rfl⟩

end SmtSwitch
